import Mathlib

/-!
Verification of the Feishu channel integration core: webhook receiver with
disk-persisted deduplication cache, token managers, streaming-card session,
and the reply dispatcher. Definitions are shallow embeddings of the
TypeScript source (the feishu plugin webhook handler and dispatcher,
`api.ts`, and `streaming-card.ts`); timestamps are milliseconds as `Int`,
JS `Map` objects are association lists with update-or-append semantics.
-/

/-! ## JS `Map` model: association list with `has` / `set` / `get` -/

/-- `Map.has(k)`. -/
def hasKey {β : Type} (c : List (String × β)) (k : String) : Bool :=
  c.any (fun p => p.1 == k)

/-- `Map.set(k, v)`: overwrite an existing key in place, otherwise append. -/
def mapSet {β : Type} (c : List (String × β)) (k : String) (v : β) :
    List (String × β) :=
  if hasKey c k then c.map (fun p => if p.1 == k then (k, v) else p)
  else c ++ [(k, v)]

/-- `Map.get(k)`. -/
def lookupKey {β : Type} (c : List (String × β)) (k : String) : Option β :=
  (c.find? (fun p => p.1 == k)).map (fun p => p.2)

/-! ## Deduplication cache (feishu plugin module state)

`messageCache : Map<string, number>` keyed by platform message id, value the
first-seen timestamp in ms. `CACHE_TTL` is 7 days in ms. -/

/-- The in-memory dedup cache, `Map<string, number>`. -/
abbrev MsgCache := List (String × Int)

/-- `CACHE_TTL = 7 * 24 * 60 * 60 * 1000` (7 days in ms). -/
def CACHE_TTL : Int := 7 * 24 * 60 * 60 * 1000

/-- `messageCache.has(mid)`. -/
def cacheHas (m : MsgCache) (mid : String) : Bool := hasKey m mid

/-- `messageCache.set(mid, ts)`. -/
def cacheSet (m : MsgCache) (mid : String) (ts : Int) : MsgCache :=
  mapSet m mid ts

/-- One record of the persisted JSON array: `{ messageId, timestamp }`. -/
structure CacheEntry where
  messageId : String
  timestamp : Int
deriving DecidableEq, Repr

/-- `loadCacheFromDisk`: rebuild the map from the persisted entry list,
keeping exactly the entries with `now - entry.timestamp < CACHE_TTL`.
(JS computes a possibly negative difference; a future-dated entry is kept
there and is likewise kept here, since truncated subtraction yields `0` on
`Int` only when exact — we use `Int`, so the comparison is the JS one.) -/
def loadCacheFromDisk (entries : List CacheEntry) (now : Int) : MsgCache :=
  entries.foldl
    (fun m e =>
      if now - e.timestamp < CACHE_TTL then cacheSet m e.messageId e.timestamp
      else m)
    []

/-- `saveCacheToDisk`: serialize the map as a flat `{messageId, timestamp}`
list. -/
def saveCacheToDisk (m : MsgCache) : List CacheEntry :=
  m.map (fun p => { messageId := p.1, timestamp := p.2 })

/-! ## Webhook receiver (plugin.register HTTP handler) -/

/-- The parsed request body, as far as the handler inspects it:
`data.challenge`, `data.header?.event_type`, `data.event?.message?.message_id`. -/
structure WebhookPayload where
  challenge : Option String
  eventType : Option String
  messageId : Option String
deriving DecidableEq, Repr

/-- The three response shapes the message path writes. -/
inductive WebhookResponse
  | challengeEcho (challenge : String)
  | success
  | successDuplicate
deriving DecidableEq, Repr

/-- `res.statusCode` set before each of these responses. -/
def responseStatus : WebhookResponse → Nat
  | WebhookResponse.challengeEcho _ => 200
  | WebhookResponse.success => 200
  | WebhookResponse.successDuplicate => 200

/-- `res.end(JSON.stringify(...))` body for each response. -/
def responseBody : WebhookResponse → String
  | WebhookResponse.challengeEcho c =>
      "\x7b\"challenge\":\"" ++ c ++ "\"\x7d"
  | WebhookResponse.success => "\x7b\"code\":0,\"msg\":\"success\"\x7d"
  | WebhookResponse.successDuplicate =>
      "\x7b\"code\":0,\"msg\":\"success (duplicate)\"\x7d"

/-- The observable actions of one handler invocation, in program order. -/
inductive HandlerEv
  | cacheInsert (messageId : String)
  | saveToDisk
  | respond (r : WebhookResponse)
  | dispatchAsync
deriving DecidableEq, Repr

/-- One invocation of the registered HTTP handler on a parsed body, given the
current dedup cache and `Date.now()`. Returns the new cache, the emitted
actions in the order the handler performs them (the whole body below runs
synchronously up to and including `res.end`; `processFeishuMessageAsync` is
started, un-awaited, afterwards), and the handler's boolean result. -/
def handleWebhook (cache : MsgCache) (now : Int) (p : WebhookPayload) :
    MsgCache × List HandlerEv × Bool :=
  match p.challenge with
  | some c =>
      (cache, [HandlerEv.respond (WebhookResponse.challengeEcho c)], true)
  | none =>
      if p.eventType == some "im.message.receive_v1" then
        match p.messageId with
        | some mid =>
            if cacheHas cache mid then
              (cache, [HandlerEv.respond WebhookResponse.successDuplicate],
               true)
            else
              let cache2 := cacheSet cache mid now
              let saveEvs :=
                if cache2.length % 10 == 0 then [HandlerEv.saveToDisk] else []
              (cache2,
               HandlerEv.cacheInsert mid ::
                 saveEvs ++
                   [HandlerEv.respond WebhookResponse.success,
                    HandlerEv.dispatchAsync],
               true)
        | none =>
            (cache,
             [HandlerEv.respond WebhookResponse.success,
              HandlerEv.dispatchAsync],
             true)
      else (cache, [], false)

/-- The event payload of an `im.message.receive_v1` delivery carrying message
id `mid` (no challenge field). -/
def msgPayload (mid : String) : WebhookPayload :=
  { challenge := none, eventType := some "im.message.receive_v1",
    messageId := some mid }

/-- Predicate: the action is the start of `processFeishuMessageAsync`. -/
def isDispatchEv : HandlerEv → Bool
  | HandlerEv.dispatchAsync => true
  | _ => false

/-- Predicate: the action is the synchronous dedup-cache insertion. -/
def isCacheInsertEv : HandlerEv → Bool
  | HandlerEv.cacheInsert _ => true
  | _ => false

/-- Predicate: the action is an HTTP response (`res.end`). -/
def isRespondEv : HandlerEv → Bool
  | HandlerEv.respond _ => true
  | _ => false

/-- The responses written during an invocation, in order. -/
def responsesOf (evs : List HandlerEv) : List WebhookResponse :=
  evs.filterMap (fun e =>
    match e with
    | HandlerEv.respond r => some r
    | _ => none)

/-! ## Token managers

Two independent module-level token caches exist in the source: one in
`api.ts` (keyed by account id) and one in `streaming-card.ts` (keyed by app
id). Each `getTenantAccessToken` model takes the current time and the
network exchange's successful result `(tenant_access_token, expire)` as
parameters and returns the token, the new cache, and the network
token-issuance requests it performed. -/

/-- A network token-issuance request (`POST /auth/v3/tenant_access_token/internal`). -/
inductive TokenEv
  | networkTokenRequest (key : String)
deriving DecidableEq, Repr

/-- `api.ts` cache entry: `{ token, expireAt }` with `expireAt` an absolute
ms instant that already has the 5-minute margin subtracted. -/
structure ApiTokenEntry where
  token : String
  expireAt : Int
deriving DecidableEq, Repr

/-- JS `data.expire || 7200`: `undefined` and `0` are falsy. -/
def jsOrDefault (o : Option Int) (d : Int) : Int :=
  match o with
  | none => d
  | some v => if v == 0 then d else v

/-- `api.ts getTenantAccessToken` (lines 29-77), success path of the network
exchange: return the cached token when `cached.expireAt > Date.now()`,
otherwise perform one network request and cache
`(token, now + (expire || 7200) * 1000 - 300000)`. -/
def apiGetTenantAccessToken (cache : List (String × ApiTokenEntry))
    (accountId : String) (now : Int) (netToken : String)
    (netExpire : Option Int) :
    String × List (String × ApiTokenEntry) × List TokenEv :=
  let fetchNew : String × List (String × ApiTokenEntry) × List TokenEv :=
    let expireAt := now + jsOrDefault netExpire 7200 * 1000 - 300000
    (netToken,
     mapSet cache accountId { token := netToken, expireAt := expireAt },
     [TokenEv.networkTokenRequest accountId])
  match lookupKey cache accountId with
  | some cached =>
      if cached.expireAt > now then (cached.token, cache, []) else fetchNew
  | none => fetchNew

/-- The JS object stored in the `streaming-card.ts` token cache. The map's
declared value type (line 34) has a field `expireAt`, the store call
(line 80) writes a field named `expiresAt`, and the lookup (line 52) reads
`expireAt`; we model the object as a record of both optional fields, `none`
standing for `undefined`. -/
structure SCTokenEntry where
  token : String
  expiresAt : Option Int
  expireAt : Option Int
deriving DecidableEq, Repr

/-- JS `a > b` where `a` may be `undefined`: comparing `undefined` (NaN
after numeric conversion) with anything is `false`. -/
def jsNumGT : Option Int → Int → Bool
  | none, _ => false
  | some a, b => a > b

/-- `streaming-card.ts getTenantAccessToken` (lines 49-84), success path:
return the cached token when `cached.expireAt > Date.now() + 60000`,
otherwise perform one network request and store
`{ token, expiresAt: now + (expire ?? 7200) * 1000 }`. -/
def scGetTenantAccessToken (cache : List (String × SCTokenEntry))
    (appId : String) (now : Int) (netToken : String) (netExpire : Option Int) :
    String × List (String × SCTokenEntry) × List TokenEv :=
  let fetchNew : String × List (String × SCTokenEntry) × List TokenEv :=
    (netToken,
     mapSet cache appId
       { token := netToken, expiresAt := some (now + netExpire.getD 7200 * 1000),
         expireAt := none },
     [TokenEv.networkTokenRequest appId])
  match lookupKey cache appId with
  | some cached =>
      if jsNumGT cached.expireAt (now + 60000) then (cached.token, cache, [])
      else fetchNew
  | none => fetchNew

/-- Every entry of the streaming-card token cache that the module itself ever
stores leaves the `expireAt` field `undefined`. -/
def scCacheWF (cache : List (String × SCTokenEntry)) : Prop :=
  ∀ p ∈ cache, (p.2).expireAt = none

/-! ## Streaming-card session (`streaming-card.ts`)

Remote calls are modelled as emitted `CardCall`s; each network operation is
parameterized by its outcome. A non-2xx application code inside a 2xx
response (`appError`) is logged without throwing in `updateStreamingCardText`
and `closeStreamingMode`; a rejected fetch (`transportError`) throws. The
per-session promise chain (`updateQueue`) serializes operations, so one
sequential application per call is the faithful order of effects. -/

/-- Outcome of one remote call. -/
inductive NetOutcome
  | ok
  | appError
  | transportError
deriving DecidableEq, Repr

/-- A remote card-API call, as observed by the platform. -/
inductive CardCall
  | createCard
  | sendCardMessage (cardId : String)
  | contentUpdate (cardId : String) (elementId : String) (text : String)
      (sequence : Nat)
  | settingsPatch (cardId : String) (sequence : Nat) (streamingMode : Bool)
      (summary : String)
deriving DecidableEq, Repr

/-- Caller-visible success of an async function. -/
def isOk : Except String Unit → Bool
  | Except.ok _ => true
  | Except.error _ => false

/-- JS `String.prototype.trim`-style whitespace (the characters relevant
here). -/
def isJsWhitespace (c : Char) : Bool :=
  c == ' ' || c == '\t' || c == '\n' || c == '\r'

/-- JS `.trim()`: drop whitespace from both ends. -/
def trimChars (l : List Char) : List Char :=
  ((l.dropWhile isJsWhitespace).reverse.dropWhile isJsWhitespace).reverse

/-- `truncateForSummary` (lines 422-431): `replace(/\n/g, " ")` (modelled as
a character-wise map), trim, and cut to 50 chars with a `...` tail
(`slice(0, 47)`). -/
def truncateForSummary (text : String) : String :=
  if text = "" then ""
  else
    let cleaned :=
      String.mk
        (trimChars (text.toList.map (fun c => if c == '\n' then ' ' else c)))
    if cleaned.length ≤ 50 then cleaned
    else String.mk (cleaned.toList.take 47) ++ "..."

/-- `updateStreamingCardText` (lines 205-235): issue the content `PUT`; an
application error is only logged (no throw), a transport failure raises to
the caller. -/
def updateStreamingCardText (cardId : String) (elementId : String)
    (text : String) (sequence : Nat) (outcome : NetOutcome) :
    List CardCall × Except String Unit :=
  ([CardCall.contentUpdate cardId elementId text sequence],
   match outcome with
   | NetOutcome.transportError => Except.error "fetch failed"
   | _ => Except.ok ())

/-- `closeStreamingMode` (lines 240-276): issue the settings `PATCH` turning
`streaming_mode` off; an application error is only logged, a transport
failure raises. -/
def closeStreamingMode (cardId : String) (sequence : Nat)
    (finalSummary : String) (outcome : NetOutcome) :
    List CardCall × Except String Unit :=
  ([CardCall.settingsPatch cardId sequence false finalSummary],
   match outcome with
   | NetOutcome.transportError => Except.error "fetch failed"
   | _ => Except.ok ())

/-- `FeishuStreamingCardState` (lines 25-31). -/
structure SessionState where
  cardId : String
  messageId : String
  sequence : Nat
  elementId : String
  currentText : String
deriving DecidableEq, Repr

/-- The mutable fields of class `FeishuStreamingSession`. -/
structure FeishuStreamingSession where
  state : Option SessionState
  closed : Bool
deriving DecidableEq, Repr

/-- `FeishuStreamingSession.start` (lines 300-327): no-op when already
started; otherwise create the card (`createStreamingCard`, whose application
and transport failures both throw) and send it (`sendStreamingCard`,
likewise), then initialize the state with `sequence := 1` and
`elementId := "streaming_content"`. `start` rethrows failures. -/
def FeishuStreamingSession.start (s : FeishuStreamingSession)
    (cardId : String) (messageId : String)
    (createOutcome sendOutcome : NetOutcome) :
    FeishuStreamingSession × List CardCall × Except String Unit :=
  match s.state with
  | some _ => (s, [], Except.ok ())
  | none =>
      if createOutcome != NetOutcome.ok then
        (s, [CardCall.createCard], Except.error "create failed")
      else if sendOutcome != NetOutcome.ok then
        (s, [CardCall.createCard, CardCall.sendCardMessage cardId],
         Except.error "send failed")
      else
        ({ state := some
             { cardId := cardId, messageId := messageId, sequence := 1,
               elementId := "streaming_content", currentText := "" },
           closed := s.closed },
         [CardCall.createCard, CardCall.sendCardMessage cardId],
         Except.ok ())

/-- `FeishuStreamingSession.update` (lines 332-360): no-op before start or
after close; otherwise store the text, bump the sequence, and issue the
content update, catching (and only logging) any exception — `update` never
rejects to its caller. -/
def FeishuStreamingSession.update (s : FeishuStreamingSession) (text : String)
    (outcome : NetOutcome) :
    FeishuStreamingSession × List CardCall × Except String Unit :=
  match s.state with
  | none => (s, [], Except.ok ())
  | some st =>
      if s.closed then (s, [], Except.ok ())
      else
        let st2 := { st with currentText := text, sequence := st.sequence + 1 }
        let issued :=
          updateStreamingCardText st2.cardId st2.elementId text st2.sequence
            outcome
        ({ s with state := some st2 }, issued.1, Except.ok ())

/-- `FeishuStreamingSession.close` (lines 365-402): no-op before start or
after close; otherwise mark the session closed, send one final content
update when the final text is non-empty (a throw there is caught by
`close`'s own catch, skipping the settings patch), then bump the sequence
again and issue the settings patch. Every failure is caught and logged —
`close` never rejects to its caller. -/
def FeishuStreamingSession.close (s : FeishuStreamingSession)
    (finalText summary : Option String)
    (updateOutcome closeOutcome : NetOutcome) :
    FeishuStreamingSession × List CardCall × Except String Unit :=
  match s.state with
  | none => (s, [], Except.ok ())
  | some st =>
      if s.closed then (s, [], Except.ok ())
      else
        let text := finalText.getD st.currentText
        let st2 := { st with sequence := st.sequence + 1 }
        let issued :=
          if text == "" then ([], Except.ok ())
          else
            updateStreamingCardText st2.cardId st2.elementId text st2.sequence
              updateOutcome
        match issued.2 with
        | Except.error _ =>
            ({ state := some st2, closed := true }, issued.1, Except.ok ())
        | Except.ok _ =>
            let st3 := { st2 with sequence := st2.sequence + 1 }
            let patched :=
              closeStreamingMode st3.cardId st3.sequence
                (summary.getD (truncateForSummary text)) closeOutcome
            ({ state := some st3, closed := true }, issued.1 ++ patched.1,
             Except.ok ())

/-- One queued operation on a started session. -/
inductive SessionOp
  | update (text : String) (o : NetOutcome)
  | close (finalText summary : Option String) (o1 o2 : NetOutcome)
deriving Repr

/-- Apply one queued operation: the resulting session and the remote calls
it issued. -/
def stepOp (s : FeishuStreamingSession) (op : SessionOp) :
    FeishuStreamingSession × List CardCall :=
  match op with
  | SessionOp.update text o => ((s.update text o).1, (s.update text o).2.1)
  | SessionOp.close fT sm o1 o2 =>
      ((s.close fT sm o1 o2).1, (s.close fT sm o1 o2).2.1)

/-- Run a list of queued operations in submission order (the per-session
promise chain applies them one after another). -/
def FeishuStreamingSession.runOps (s : FeishuStreamingSession) :
    List SessionOp → FeishuStreamingSession × List CardCall
  | [] => (s, [])
  | op :: rest =>
      let step := stepOp s op
      let tail := step.1.runOps rest
      (tail.1, step.2 ++ tail.2)

/-- The sequence number a call carries to the platform, when it carries one. -/
def callSeq : CardCall → Option Nat
  | CardCall.contentUpdate _ _ _ q => some q
  | CardCall.settingsPatch _ q _ _ => some q
  | _ => none

/-- The sequence numbers of a call trace, in emission order. -/
def seqsOf (calls : List CardCall) : List Nat := calls.filterMap callSeq

/-- The session's current sequence counter (0 before start). -/
def stateSeq (s : FeishuStreamingSession) : Nat :=
  match s.state with
  | some st => st.sequence
  | none => 0

/-! ## Reply dispatcher (`processFeishuMessageAsync` closure state)

One dispatcher object is created per inbound event. Its closure state is the
`sendFinalCalled` latch, the `typingReactionId` from the reaction add, and
whether the `processingComplete` promise has been resolved. Outbound API
calls are modelled as emitted `SendEv`s; each dispatcher operation returns
its emitted calls in program order. -/

/-- An outbound API call performed by the dispatcher. -/
inductive SendEv
  | addTypingIndicator (messageId : String)
  | removeTypingReaction (messageId : String) (reactionId : String)
  | uploadImage
  | uploadMedia (fileType : String)
  | sendMessage (msgType : String)
deriving DecidableEq, Repr

/-- One media attachment of a dispatcher payload. -/
structure MediaItem where
  mtype : String
  hasBuffer : Bool
deriving DecidableEq, Repr

/-- A `{ text, media[] }` dispatcher payload. -/
structure ReplyPayload where
  text : String
  media : List MediaItem
deriving DecidableEq, Repr

/-- Dispatcher closure state (`sendFinalCalled`, `typingReactionId`, and
whether `resolveProcessing` has been invoked). -/
structure DispatcherState where
  sendFinalCalled : Bool
  typingReactionId : Option String
  processingResolved : Bool
deriving DecidableEq, Repr

/-- `sendThinkingCard` (lines 280-295): call `addTypingIndicator` on the
original message; on success (a reaction id is returned) record it,
otherwise (the call returns `null` or throws, which the catch swallows)
leave the state unchanged. -/
def sendThinkingCard (st : DispatcherState) (originalMessageId : String)
    (reactionResult : Option String) : DispatcherState × List SendEv :=
  match reactionResult with
  | some rid =>
      ({ st with typingReactionId := some rid },
       [SendEv.addTypingIndicator originalMessageId])
  | none => (st, [SendEv.addTypingIndicator originalMessageId])

/-- Environment of one `sendFinalReply` invocation: whether a recent (<60s)
screenshot file is found, and the outcome of the `removeReaction` call. -/
structure FinalEnv where
  recentScreenshot : Bool
  removeOutcome : NetOutcome
deriving DecidableEq, Repr

/-- The screenshot auto-detection block (lines 525-598): when a recent
screenshot exists it is uploaded and sent as an image message (its failures
are caught per-call and only logged). -/
def screenshotEvents (env : FinalEnv) : List SendEv :=
  if env.recentScreenshot then [SendEv.uploadImage, SendEv.sendMessage "image"]
  else []

/-- One iteration of the media loop inside `sendBlockReply`/`sendFinalReply`
(only image items with a buffer are sent; failures are caught per item). -/
def mediaItemEvents (m : MediaItem) : List SendEv :=
  if m.mtype == "image" && m.hasBuffer then
    [SendEv.uploadImage, SendEv.sendMessage "image"]
  else []

/-- `dispatcher.sendBlockReply` (lines 442-506): with media, send each image
then the text when non-empty; without media, send the text unconditionally. -/
def sendBlockReply (payload : ReplyPayload) : List SendEv :=
  if payload.media.isEmpty then [SendEv.sendMessage "text"]
  else
    (payload.media.map mediaItemEvents).flatten ++
      (if payload.text == "" then [] else [SendEv.sendMessage "text"])

/-- `dispatcher.sendFinalReply` (lines 507-716). The latch check precedes the
try/finally, so a repeated call returns without any send and without
resolving. Otherwise: the screenshot block runs first; with media, images
are sent, then the text when non-empty — the typing indicator is not
touched on this branch; without media, the typing indicator (when present)
is removed first (`removeReaction`'s application-level failure still lets
the `typingReactionId = null` assignment run; only a thrown transport
failure is caught before it), then the final text goes out as an
interactive card when longer than 200 chars and as plain text otherwise.
The finally block resolves `processingComplete`. -/
def sendFinalReply (st : DispatcherState) (originalMessageId : String)
    (payload : ReplyPayload) (env : FinalEnv) :
    DispatcherState × List SendEv :=
  if st.sendFinalCalled then (st, [])
  else
    let stStart := { st with sendFinalCalled := true }
    let shots := screenshotEvents env
    if payload.media.isEmpty then
      let removed :=
        match stStart.typingReactionId with
        | some rid =>
            if env.removeOutcome == NetOutcome.transportError then
              (stStart,
               [SendEv.removeTypingReaction originalMessageId rid])
            else
              ({ stStart with typingReactionId := none },
               [SendEv.removeTypingReaction originalMessageId rid])
        | none => (stStart, [])
      let finalSend :=
        if payload.text.length > 200 then [SendEv.sendMessage "interactive"]
        else [SendEv.sendMessage "text"]
      ({ removed.1 with processingResolved := true },
       shots ++ removed.2 ++ finalSend)
    else
      let mediaEvs := (payload.media.map mediaItemEvents).flatten
      let textEvs :=
        if payload.text == "" then [] else [SendEv.sendMessage "text"]
      ({ stStart with processingResolved := true },
       shots ++ mediaEvs ++ textEvs)

/-- `dispatcher.waitForIdle` (lines 717-740), sequential abstraction: when
`processingComplete` is already resolved the await returns at once and the
30-second fallback timer is cleared without firing; otherwise (the backend
never produced a final reply) the fallback fires after 30 seconds, removes
the typing indicator when present, and resolves. -/
def waitForIdle (st : DispatcherState) (originalMessageId : String) :
    DispatcherState × List SendEv :=
  if st.processingResolved then (st, [])
  else
    match st.typingReactionId with
    | some rid =>
        ({ st with typingReactionId := none, processingResolved := true },
         [SendEv.removeTypingReaction originalMessageId rid])
    | none => ({ st with processingResolved := true }, [])

/-- Predicate: the call removes the typing-indicator reaction. -/
def isRemovalEv : SendEv → Bool
  | SendEv.removeTypingReaction _ _ => true
  | _ => false

/-- Number of typing-indicator removals in a call trace. -/
def countRemovals (evs : List SendEv) : Nat := evs.countP isRemovalEv

/-- Predicate: the call sends a chat message. -/
def isSendMessageEv : SendEv → Bool
  | SendEv.sendMessage _ => true
  | _ => false

/-! ## Asynchronous interleaving of the typing-indicator add

`processFeishuMessageAsync` starts `sendThinkingCard()` without awaiting it
(line 298: a fire-and-forget call with only a `.catch`), then awaits
`dispatchInboundMessage`. The completion of the reaction network call is
therefore concurrent with the backend's dispatcher calls: an execution is
any interleaving of the thinking task's events with the dispatch task's
events that preserves each task's internal order. -/

/-- Events of the concurrent composition. -/
inductive AsyncEv
  | reactionAddStarted
  | reactionAddCompleted
  | dispatchSend (e : SendEv)
deriving DecidableEq, Repr

/-- `Interleaving xs ys zs`: `zs` merges the two task event lists `xs` and
`ys`, keeping the internal order of each. -/
inductive Interleaving {α : Type} : List α → List α → List α → Prop
  | nil : Interleaving [] [] []
  | left {x : α} {xs ys zs : List α} :
      Interleaving xs ys zs → Interleaving (x :: xs) ys (x :: zs)
  | right {y : α} {xs ys zs : List α} :
      Interleaving xs ys zs → Interleaving xs (y :: ys) (y :: zs)

/-- The thinking task: the reaction call is issued and later completes. -/
def thinkingTaskEvents : List AsyncEv :=
  [AsyncEv.reactionAddStarted, AsyncEv.reactionAddCompleted]

/-- `a` occurs strictly before (a later occurrence of) `b` in `l`. -/
def OrderedIn {α : Type} (a b : α) (l : List α) : Prop :=
  ∃ l1 l2 l3, l = l1 ++ a :: l2 ++ b :: l3

/-- Some dispatch send is performed before the reaction add has completed. -/
def sendBeforeCompletion (t : List AsyncEv) : Bool :=
  (t.takeWhile (fun e => e != AsyncEv.reactionAddCompleted)).any
    (fun e =>
      match e with
      | AsyncEv.dispatchSend _ => true
      | _ => false)

/-! ## Helper lemmas -/

theorem anyExt {α : Type} (l : List α) (p q : α → Bool)
    (h : ∀ x ∈ l, p x = q x) : l.any p = l.any q := by
  induction l with
  | nil => rfl
  | cons a t ih =>
      simp only [List.any_cons, h a (List.mem_cons_self a t),
        ih (fun x hx => h x (List.mem_cons_of_mem a hx))]

theorem hasKey_mapSet {β : Type} (c : List (String × β)) (k x : String)
    (v : β) : hasKey (mapSet c k v) x = (hasKey c x || k == x) := by
  unfold mapSet
  by_cases hk : hasKey c k
  · simp only [hk, if_true]
    unfold hasKey
    rw [List.any_map]
    have hpt : ∀ p ∈ c,
        ((fun q : String × β => q.1 == x) ∘
          (fun q : String × β => if q.1 == k then (k, v) else q)) p
          = (fun q : String × β => q.1 == x) p := by
      intro p _
      by_cases h1 : (p.1 == k) = true
      · have hpk : p.1 = k := eq_of_beq h1
        simp [Function.comp, h1, hpk]
      · simp [Function.comp, h1]
    rw [anyExt _ _ _ hpt]
    by_cases hkx : (k == x) = true
    · have hke : k = x := eq_of_beq hkx
      subst hke
      unfold hasKey at hk
      simp [hk]
    · simp [hkx]
  · simp only [hk, if_false]
    unfold hasKey
    simp [List.any_append, List.any_cons]

theorem find?_mapOverwrite {β : Type} (c : List (String × β)) (k : String)
    (v : β) (hk : hasKey c k = true) :
    (c.map (fun p => if p.1 == k then (k, v) else p)).find?
        (fun p => p.1 == k) = some (k, v) := by
  induction c with
  | nil => simp [hasKey] at hk
  | cons p t ih =>
      by_cases h1 : (p.1 == k) = true
      · simp only [List.map_cons]
        rw [if_pos h1]
        simp [List.find?_cons]
      · have hfalse : (p.1 == k) = false := by simpa using h1
        have ht : hasKey t k = true := by
          unfold hasKey at hk ⊢
          simp only [List.any_cons, hfalse, Bool.false_or] at hk
          exact hk
        simp only [List.map_cons]
        rw [if_neg h1]
        simp only [List.find?_cons, hfalse]
        exact ih ht

theorem find?_appendNew {β : Type} (c : List (String × β)) (k : String)
    (v : β) (hk : hasKey c k = false) :
    (c ++ [(k, v)]).find? (fun p => p.1 == k) = some (k, v) := by
  induction c with
  | nil => simp [List.find?_cons]
  | cons p t ih =>
      have hsplit : (p.1 == k) = false ∧ hasKey t k = false := by
        unfold hasKey at hk
        simp only [List.any_cons, Bool.or_eq_false_iff] at hk
        exact hk
      simp only [List.cons_append, List.find?_cons, hsplit.1, cond_false]
      exact ih hsplit.2

theorem lookupKey_mapSet_self {β : Type} (c : List (String × β)) (k : String)
    (v : β) : lookupKey (mapSet c k v) k = some v := by
  unfold lookupKey mapSet
  by_cases hk : hasKey c k
  · rw [if_pos hk, find?_mapOverwrite c k v hk]
    rfl
  · rw [if_neg hk, find?_appendNew c k v (by simpa using hk)]
    rfl

theorem cacheHas_load_aux (entries : List CacheEntry) (now : Int)
    (init : MsgCache) (mid : String) :
    cacheHas
        (entries.foldl
          (fun m e =>
            if now - e.timestamp < CACHE_TTL then
              cacheSet m e.messageId e.timestamp
            else m)
          init) mid
      = (cacheHas init mid ||
          entries.any
            (fun e =>
              e.messageId == mid && decide (now - e.timestamp < CACHE_TTL))) := by
  induction entries generalizing init with
  | nil => simp
  | cons e t ih =>
      simp only [List.foldl_cons, List.any_cons]
      by_cases hf : now - e.timestamp < CACHE_TTL
      · rw [if_pos hf, ih]
        show (hasKey (mapSet init e.messageId e.timestamp) mid || _) = _
        rw [hasKey_mapSet]
        simp [hf, cacheHas, Bool.or_assoc]
      · rw [if_neg hf, ih]
        simp [hf]

theorem interleavingNilLeft {α : Type} (ys : List α) :
    Interleaving ([] : List α) ys ys := by
  induction ys with
  | nil => exact Interleaving.nil
  | cons y t ih => exact Interleaving.right ih

theorem Interleaving.mem_right {α : Type} {xs ys zs : List α}
    (h : Interleaving xs ys zs) : ∀ a : α, a ∈ ys → a ∈ zs := by
  induction h with
  | nil => intro a ha; exact ha
  | left _ ih => intro a ha; exact List.mem_cons_of_mem _ (ih a ha)
  | right _ ih =>
      intro a ha
      rcases List.mem_cons.mp ha with h1 | h2
      · exact h1 ▸ List.mem_cons_self _ _
      · exact List.mem_cons_of_mem _ (ih a h2)

theorem Interleaving.orderedIn_right {α : Type} {xs ys zs : List α}
    (h : Interleaving xs ys zs) :
    ∀ a b : α, OrderedIn a b ys → OrderedIn a b zs := by
  induction h with
  | nil => intro a b hab; exact hab
  | @left x xs2 ys2 zs2 _ ih =>
      intro a b hab
      obtain ⟨l1, l2, l3, hl⟩ := ih a b hab
      exact ⟨x :: l1, l2, l3, by rw [hl]; rfl⟩
  | @right y xs2 ys2 zs2 hprev ih =>
      intro a b hab
      obtain ⟨l1, l2, l3, hl⟩ := hab
      cases l1 with
      | nil =>
          simp only [List.nil_append] at hl
          injection hl with h1 h2
          have hb : b ∈ ys2 := by
            rw [h2]
            exact List.mem_append.mpr (Or.inr (List.mem_cons_self _ _))
          have hbz := hprev.mem_right b hb
          obtain ⟨m1, m2, hm⟩ := List.append_of_mem hbz
          exact ⟨[], m1, m2, by rw [h1, hm]; rfl⟩
      | cons c l1t =>
          simp only [List.cons_append] at hl
          injection hl with h1 h2
          obtain ⟨m1, m2, m3, hm⟩ := ih a b ⟨l1t, l2, l3, h2⟩
          exact ⟨y :: m1, m2, m3, by rw [hm]; rfl⟩

theorem update_bounds (s : FeishuStreamingSession) (text : String)
    (o : NetOutcome) :
    List.Chain' (· < ·) (seqsOf (s.update text o).2.1) ∧
      (∀ q ∈ seqsOf (s.update text o).2.1,
        stateSeq s < q ∧ q ≤ stateSeq (s.update text o).1) ∧
      stateSeq s ≤ stateSeq (s.update text o).1 := by
  unfold FeishuStreamingSession.update
  cases hst : s.state with
  | none => simp [seqsOf, stateSeq, hst]
  | some st =>
      by_cases hc : s.closed
      · simp [seqsOf, stateSeq, hst, hc]
      · simp [seqsOf, stateSeq, hst, hc, updateStreamingCardText, callSeq]

theorem close_bounds (s : FeishuStreamingSession) (fT sm : Option String)
    (o1 o2 : NetOutcome) :
    List.Chain' (· < ·) (seqsOf (s.close fT sm o1 o2).2.1) ∧
      (∀ q ∈ seqsOf (s.close fT sm o1 o2).2.1,
        stateSeq s < q ∧ q ≤ stateSeq (s.close fT sm o1 o2).1) ∧
      stateSeq s ≤ stateSeq (s.close fT sm o1 o2).1 := by
  unfold FeishuStreamingSession.close
  cases hst : s.state with
  | none => simp [seqsOf, stateSeq, hst]
  | some st =>
      by_cases hc : s.closed
      · simp [seqsOf, stateSeq, hst, hc]
      · by_cases htext : (fT.getD st.currentText == "") = true
        · simp [seqsOf, stateSeq, hst, hc, htext, closeStreamingMode, callSeq]
          omega
        · by_cases herr : o1 = NetOutcome.transportError
          · simp [seqsOf, stateSeq, hst, hc, htext, herr,
              updateStreamingCardText, callSeq]
          · have hok :
                (updateStreamingCardText st.cardId st.elementId
                    (fT.getD st.currentText) (st.sequence + 1) o1).2
                  = Except.ok () := by
              cases o1 <;> simp [updateStreamingCardText] at herr ⊢
            simp [seqsOf, stateSeq, hst, hc, htext, hok,
              updateStreamingCardText, closeStreamingMode, callSeq]
            omega

theorem stepOp_bounds (s : FeishuStreamingSession) (op : SessionOp) :
    List.Chain' (· < ·) (seqsOf (stepOp s op).2) ∧
      (∀ q ∈ seqsOf (stepOp s op).2,
        stateSeq s < q ∧ q ≤ stateSeq (stepOp s op).1) ∧
      stateSeq s ≤ stateSeq (stepOp s op).1 := by
  cases op with
  | update text o => exact update_bounds s text o
  | close fT sm o1 o2 => exact close_bounds s fT sm o1 o2

theorem runOps_bounds (ops : List SessionOp) (s : FeishuStreamingSession) :
    List.Chain' (· < ·) (seqsOf (s.runOps ops).2) ∧
      (∀ q ∈ seqsOf (s.runOps ops).2,
        stateSeq s < q ∧ q ≤ stateSeq (s.runOps ops).1) ∧
      stateSeq s ≤ stateSeq (s.runOps ops).1 := by
  induction ops generalizing s with
  | nil => simp [FeishuStreamingSession.runOps, seqsOf]
  | cons op rest ih =>
      obtain ⟨hchain1, hbound1, hle1⟩ := stepOp_bounds s op
      obtain ⟨hchain2, hbound2, hle2⟩ := ih (stepOp s op).1
      have hrun1 : (s.runOps (op :: rest)).1
          = ((stepOp s op).1.runOps rest).1 := rfl
      have hrun2 : (s.runOps (op :: rest)).2
          = (stepOp s op).2 ++ ((stepOp s op).1.runOps rest).2 := rfl
      have hseqs : seqsOf ((stepOp s op).2 ++ ((stepOp s op).1.runOps rest).2)
          = seqsOf (stepOp s op).2 ++ seqsOf ((stepOp s op).1.runOps rest).2 := by
        unfold seqsOf
        exact List.filterMap_append _ _ _
      refine ⟨?_, ?_, ?_⟩
      · rw [hrun2, hseqs, List.chain'_append]
        refine ⟨hchain1, hchain2, ?_⟩
        intro x hx y hy
        have hxm := hbound1 x (List.mem_of_mem_getLast? hx)
        have hym := hbound2 y (List.mem_of_mem_head? hy)
        omega
      · intro q hq
        rw [hrun2, hseqs] at hq
        rw [hrun1]
        rcases List.mem_append.mp hq with h1 | h2
        · have ha := hbound1 q h1
          exact ⟨ha.1, le_trans ha.2 hle2⟩
        · have hb := hbound2 q h2
          exact ⟨lt_of_le_of_lt hle1 hb.1, hb.2⟩
      · rw [hrun1]
        exact le_trans hle1 hle2

theorem cacheHas_cacheSet_self (cache : MsgCache) (mid : String) (ts : Int) :
    cacheHas (cacheSet cache mid ts) mid = true := by
  show hasKey (mapSet cache mid ts) mid = true
  rw [hasKey_mapSet]
  simp

theorem handleWebhook_new (cache : MsgCache) (now : Int) (mid : String)
    (h : cacheHas cache mid = false) :
    handleWebhook cache now (msgPayload mid)
      = (cacheSet cache mid now,
         HandlerEv.cacheInsert mid ::
           (if (cacheSet cache mid now).length % 10 == 0 then
              [HandlerEv.saveToDisk]
            else []) ++
             [HandlerEv.respond WebhookResponse.success,
              HandlerEv.dispatchAsync],
         true) := by
  unfold handleWebhook msgPayload
  simp [h]

theorem handleWebhook_dup (cache : MsgCache) (now : Int) (mid : String)
    (h : cacheHas cache mid = true) :
    handleWebhook cache now (msgPayload mid)
      = (cache, [HandlerEv.respond WebhookResponse.successDuplicate], true) := by
  unfold handleWebhook msgPayload
  simp [h]

/-! ## Claim theorems -/

/-- Claim C1: for an `im.message.receive_v1` event with message id `mid` not
yet in the dedup cache, delivering the same payload twice in succession
yields two HTTP 200 acknowledgements — the first with body
`code 0 / msg success`, the second with `code 0 / msg success (duplicate)` —
and exactly one start of `processFeishuMessageAsync` across the two
deliveries. -/
theorem c1_duplicate_redelivery (cache : MsgCache) (now1 now2 : Int)
    (mid : String) (h : cacheHas cache mid = false) :
    responsesOf (handleWebhook cache now1 (msgPayload mid)).2.1
        = [WebhookResponse.success] ∧
      responsesOf
          (handleWebhook (handleWebhook cache now1 (msgPayload mid)).1 now2
            (msgPayload mid)).2.1
        = [WebhookResponse.successDuplicate] ∧
      ((handleWebhook cache now1 (msgPayload mid)).2.1.countP isDispatchEv
          + (handleWebhook (handleWebhook cache now1 (msgPayload mid)).1 now2
                (msgPayload mid)).2.1.countP isDispatchEv)
        = 1 ∧
      responseStatus WebhookResponse.success = 200 ∧
      responseStatus WebhookResponse.successDuplicate = 200 ∧
      responseBody WebhookResponse.success
        = "\x7b\"code\":0,\"msg\":\"success\"\x7d" ∧
      responseBody WebhookResponse.successDuplicate
        = "\x7b\"code\":0,\"msg\":\"success (duplicate)\"\x7d" := by
  have hdup := cacheHas_cacheSet_self cache mid now1
  rw [handleWebhook_new cache now1 mid h]
  rw [handleWebhook_dup (cacheSet cache mid now1) now2 mid hdup]
  by_cases hsave : ((cacheSet cache mid now1).length % 10 == 0) = true
  · refine ⟨?_, ?_, ?_, rfl, rfl, rfl, rfl⟩ <;>
      simp [hsave, responsesOf, isDispatchEv, List.countP_cons]
  · refine ⟨?_, ?_, ?_, rfl, rfl, rfl, rfl⟩ <;>
      simp [hsave, responsesOf, isDispatchEv, List.countP_cons]

/-- Claim C1 witness at a concrete input. -/
theorem c1_duplicate_redelivery_witness :
    cacheHas [] "m1" = false ∧
      (responsesOf (handleWebhook [] 0 (msgPayload "m1")).2.1
          = [WebhookResponse.success] ∧
        responsesOf
            (handleWebhook (handleWebhook [] 0 (msgPayload "m1")).1 1
              (msgPayload "m1")).2.1
          = [WebhookResponse.successDuplicate] ∧
        ((handleWebhook [] 0 (msgPayload "m1")).2.1.countP isDispatchEv
            + (handleWebhook (handleWebhook [] 0 (msgPayload "m1")).1 1
                  (msgPayload "m1")).2.1.countP isDispatchEv)
          = 1 ∧
        responseStatus WebhookResponse.success = 200 ∧
        responseStatus WebhookResponse.successDuplicate = 200 ∧
        responseBody WebhookResponse.success
          = "\x7b\"code\":0,\"msg\":\"success\"\x7d" ∧
        responseBody WebhookResponse.successDuplicate
          = "\x7b\"code\":0,\"msg\":\"success (duplicate)\"\x7d") :=
  ⟨by decide, c1_duplicate_redelivery [] 0 1 "m1" (by decide)⟩

/-- Claim C2: for a non-duplicate message event, the handler's synchronous
action order is: dedup-cache insertion, then the HTTP 200 acknowledgement
(`res.end`), then — strictly after both — the start of the asynchronous
`processFeishuMessageAsync` processing. -/
theorem c2_insert_ack_dispatch_order (cache : MsgCache) (now : Int)
    (mid : String) (h : cacheHas cache mid = false) :
    ((handleWebhook cache now (msgPayload mid)).2.1.findIdx isCacheInsertEv
        < (handleWebhook cache now (msgPayload mid)).2.1.findIdx isRespondEv) ∧
      ((handleWebhook cache now (msgPayload mid)).2.1.findIdx isRespondEv
        < (handleWebhook cache now (msgPayload mid)).2.1.findIdx isDispatchEv) ∧
      ((handleWebhook cache now (msgPayload mid)).2.1.findIdx isDispatchEv
        < (handleWebhook cache now (msgPayload mid)).2.1.length) := by
  rw [handleWebhook_new cache now mid h]
  by_cases hsave : ((cacheSet cache mid now).length % 10 == 0) = true
  · simp [hsave, List.findIdx_cons, isCacheInsertEv, isRespondEv, isDispatchEv]
  · simp [hsave, List.findIdx_cons, isCacheInsertEv, isRespondEv, isDispatchEv]

/-- Claim C2 witness at a concrete input. -/
theorem c2_insert_ack_dispatch_order_witness :
    cacheHas [] "m1" = false ∧
      (((handleWebhook [] 0 (msgPayload "m1")).2.1.findIdx isCacheInsertEv
          < (handleWebhook [] 0 (msgPayload "m1")).2.1.findIdx isRespondEv) ∧
        ((handleWebhook [] 0 (msgPayload "m1")).2.1.findIdx isRespondEv
          < (handleWebhook [] 0 (msgPayload "m1")).2.1.findIdx isDispatchEv) ∧
        ((handleWebhook [] 0 (msgPayload "m1")).2.1.findIdx isDispatchEv
          < (handleWebhook [] 0 (msgPayload "m1")).2.1.length)) :=
  ⟨by decide, c2_insert_ack_dispatch_order [] 0 "m1" (by decide)⟩

/-- Claim C8: reloading the dedup cache from disk restores exactly the
entries with age below the 7-day TTL (membership iff a persisted entry for
that id is fresh); an id that was persisted from the in-memory cache before
a restart with a fresh timestamp is recognized as a duplicate after the
reload (no second dispatch), and ids whose persisted entries are all stale
are absent. -/
theorem c8_reload_keeps_fresh_entries (entries : List CacheEntry)
    (saved : MsgCache) (now now2 ts : Int) (mid : String) :
    (cacheHas (loadCacheFromDisk entries now) mid = true ↔
        ∃ e ∈ entries, e.messageId = mid ∧ now - e.timestamp < CACHE_TTL) ∧
      (cacheHas (loadCacheFromDisk entries now) mid = true →
        responsesOf
            (handleWebhook (loadCacheFromDisk entries now) now2
              (msgPayload mid)).2.1
          = [WebhookResponse.successDuplicate] ∧
        (handleWebhook (loadCacheFromDisk entries now) now2
              (msgPayload mid)).2.1.countP isDispatchEv
          = 0) ∧
      ((mid, ts) ∈ saved → now - ts < CACHE_TTL →
        cacheHas (loadCacheFromDisk (saveCacheToDisk saved) now) mid = true) := by
  have hchar : ∀ (es : List CacheEntry),
      cacheHas (loadCacheFromDisk es now) mid = true ↔
        ∃ e ∈ es, e.messageId = mid ∧ now - e.timestamp < CACHE_TTL := by
    intro es
    unfold loadCacheFromDisk
    rw [cacheHas_load_aux es now [] mid]
    simp only [cacheHas, hasKey, List.any_nil, Bool.false_or]
    rw [List.any_eq_true]
    constructor
    · rintro ⟨e, he, hpe⟩
      rw [Bool.and_eq_true, beq_iff_eq, decide_eq_true_iff] at hpe
      exact ⟨e, he, hpe⟩
    · rintro ⟨e, he, h1, h2⟩
      exact ⟨e, he, by rw [Bool.and_eq_true, beq_iff_eq, decide_eq_true_iff]
                       exact ⟨h1, h2⟩⟩
  refine ⟨hchar entries, ?_, ?_⟩
  · intro hdup
    rw [handleWebhook_dup (loadCacheFromDisk entries now) now2 mid hdup]
    simp [responsesOf, isDispatchEv]
  · intro hmem hfresh
    rw [hchar (saveCacheToDisk saved)]
    refine ⟨{ messageId := mid, timestamp := ts }, ?_, rfl, hfresh⟩
    unfold saveCacheToDisk
    exact List.mem_map_of_mem _ hmem

/-- Claim C8 witness at a concrete input. -/
theorem c8_reload_keeps_fresh_entries_witness :
    (cacheHas
          (loadCacheFromDisk
            [{ messageId := "m1", timestamp := 0 },
             { messageId := "m2", timestamp := -604800000 }]
            10)
          "m1"
        = true ↔
        ∃ e ∈ [({ messageId := "m1", timestamp := 0 } : CacheEntry),
               { messageId := "m2", timestamp := -604800000 }],
          e.messageId = "m1" ∧ (10 : Int) - e.timestamp < CACHE_TTL) ∧
      responsesOf
          (handleWebhook
            (loadCacheFromDisk
              [{ messageId := "m1", timestamp := 0 },
               { messageId := "m2", timestamp := -604800000 }]
              10)
            11 (msgPayload "m1")).2.1
        = [WebhookResponse.successDuplicate] ∧
      (handleWebhook
            (loadCacheFromDisk
              [{ messageId := "m1", timestamp := 0 },
               { messageId := "m2", timestamp := -604800000 }]
              10)
            11 (msgPayload "m1")).2.1.countP isDispatchEv
        = 0 ∧
      cacheHas (loadCacheFromDisk (saveCacheToDisk [("m1", (0 : Int))]) 10) "m1"
        = true :=
  ⟨(c8_reload_keeps_fresh_entries
      [{ messageId := "m1", timestamp := 0 },
       { messageId := "m2", timestamp := -604800000 }]
      [("m1", (0 : Int))] 10 11 0 "m1").1,
   ((c8_reload_keeps_fresh_entries
      [{ messageId := "m1", timestamp := 0 },
       { messageId := "m2", timestamp := -604800000 }]
      [("m1", (0 : Int))] 10 11 0 "m1").2.1 (by decide)).1,
   ((c8_reload_keeps_fresh_entries
      [{ messageId := "m1", timestamp := 0 },
       { messageId := "m2", timestamp := -604800000 }]
      [("m1", (0 : Int))] 10 11 0 "m1").2.1 (by decide)).2,
   (c8_reload_keeps_fresh_entries
      [{ messageId := "m1", timestamp := 0 },
       { messageId := "m2", timestamp := -604800000 }]
      [("m1", (0 : Int))] 10 11 0 "m1").2.2 (by decide) (by decide)⟩

theorem lookupKey_mem {β : Type} {c : List (String × β)} {k : String} {v : β}
    (h : lookupKey c k = some v) : ∃ key, (key, v) ∈ c := by
  unfold lookupKey at h
  cases hf : c.find? (fun p => p.1 == k) with
  | none => rw [hf] at h; simp at h
  | some p =>
      rw [hf] at h
      simp at h
      subst h
      exact ⟨p.1, by simpa using List.mem_of_find?_eq_some hf⟩

theorem scCacheWF_mapSet (c : List (String × SCTokenEntry)) (k : String)
    (v : SCTokenEntry) (hv : v.expireAt = none) (hc : scCacheWF c) :
    scCacheWF (mapSet c k v) := by
  intro p hp
  unfold mapSet at hp
  by_cases hk : hasKey c k
  · rw [if_pos hk] at hp
    obtain ⟨q, hq, hqe⟩ := List.mem_map.mp hp
    by_cases h1 : (q.1 == k) = true
    · rw [if_pos h1] at hqe
      rw [← hqe]
      exact hv
    · rw [if_neg h1] at hqe
      rw [← hqe]
      exact hc q hq
  · rw [if_neg hk] at hp
    rcases List.mem_append.mp hp with h1 | h2
    · exact hc p h1
    · have hp2 : p = (k, v) := by simpa using h2
      rw [hp2]
      exact hv

/-- Claim C3 counterexample: in the streaming-card module, after a first
`getTenantAccessToken` call at time 0 caches a token whose true expiry is
7200000 ms (so at time 1000 the expiry minus the 5-minute margin has not
passed), a second call at time 1000 still performs a network token-issuance
request. The cached object carries `expiresAt` while the lookup reads the
absent `expireAt` field. -/
theorem c3_token_cache_counterexample :
    lookupKey (scGetTenantAccessToken [] "app_1" 0 "tok_a" (some 7200)).2.1
        "app_1"
      = some { token := "tok_a", expiresAt := some 7200000,
               expireAt := none } ∧
      ((1000 : Int) + 300000 < 0 + 7200 * 1000) ∧
      (scGetTenantAccessToken
          (scGetTenantAccessToken [] "app_1" 0 "tok_a" (some 7200)).2.1
          "app_1" 1000 "tok_b" (some 7200)).2.2
        = [TokenEv.networkTokenRequest "app_1"] :=
  ⟨by decide, by decide, by decide⟩

/-- Claim C3 (amended): in the API client, `getTenantAccessToken` never
performs a network token request while a cached entry with
`expireAt > now` exists (the 5-minute margin is subtracted when the entry
is stored, so a cached entry is returned only when now plus 5 minutes is
before the issued token's expiry); on a miss it performs exactly one
network request and stores `now + (expire || 7200) * 1000 - 300000`. In the
streaming-card module the store writes `expiresAt` while the lookup reads
`expireAt`, so the cache never hits and every call performs exactly one
network token request. -/
theorem c3_token_cache_amended :
    (∀ (cache : List (String × ApiTokenEntry)) (accountId : String)
        (now : Int) (netToken : String) (netExpire : Option Int)
        (e : ApiTokenEntry),
        lookupKey cache accountId = some e → e.expireAt > now →
        apiGetTenantAccessToken cache accountId now netToken netExpire
          = (e.token, cache, [])) ∧
      (∀ (cache : List (String × ApiTokenEntry)) (accountId : String)
          (now : Int) (netToken : String) (netExpire : Option Int),
          (∀ e, lookupKey cache accountId = some e → ¬ e.expireAt > now) →
          lookupKey
              (apiGetTenantAccessToken cache accountId now netToken
                netExpire).2.1 accountId
            = some { token := netToken,
                     expireAt :=
                       now + jsOrDefault netExpire 7200 * 1000 - 300000 } ∧
          (apiGetTenantAccessToken cache accountId now netToken netExpire).2.2
            = [TokenEv.networkTokenRequest accountId]) ∧
      (∀ (cache : List (String × SCTokenEntry)) (appId : String) (now : Int)
          (netToken : String) (netExpire : Option Int),
          scCacheWF cache →
          (scGetTenantAccessToken cache appId now netToken netExpire).2.2
            = [TokenEv.networkTokenRequest appId] ∧
          scCacheWF
            (scGetTenantAccessToken cache appId now netToken netExpire).2.1) := by
  refine ⟨?_, ?_, ?_⟩
  · intro cache accountId now netToken netExpire e hl hv
    unfold apiGetTenantAccessToken
    rw [hl]
    dsimp only
    rw [if_pos hv]
  · intro cache accountId now netToken netExpire hmiss
    unfold apiGetTenantAccessToken
    cases hl : lookupKey cache accountId with
    | none =>
        dsimp only
        exact ⟨lookupKey_mapSet_self cache accountId _, rfl⟩
    | some e =>
        dsimp only
        rw [if_neg (hmiss e hl)]
        exact ⟨lookupKey_mapSet_self cache accountId _, rfl⟩
  · intro cache appId now netToken netExpire hwf
    unfold scGetTenantAccessToken
    cases hl : lookupKey cache appId with
    | none =>
        dsimp only
        exact ⟨rfl, scCacheWF_mapSet cache appId _ rfl hwf⟩
    | some cached =>
        obtain ⟨key, hmem⟩ := lookupKey_mem hl
        have hnone : cached.expireAt = none := hwf (key, cached) hmem
        dsimp only
        have hcond : jsNumGT cached.expireAt (now + 60000) = false := by
          rw [hnone]
          rfl
        rw [hcond]
        rw [if_neg (show ¬(false = true) by simp)]
        exact ⟨rfl, scCacheWF_mapSet cache appId _ rfl hwf⟩

/-- Claim C3 (amended) witness at concrete inputs. -/
theorem c3_token_cache_amended_witness :
    lookupKey [("acc", ({ token := "tok", expireAt := 5 } : ApiTokenEntry))]
        "acc"
      = some { token := "tok", expireAt := 5 } ∧
      ((5 : Int) > 4) ∧
      apiGetTenantAccessToken
          [("acc", { token := "tok", expireAt := 5 })] "acc" 4 "x" none
        = ("tok", [("acc", { token := "tok", expireAt := 5 })], []) ∧
      (scGetTenantAccessToken [] "app_1" 0 "tok_a" none).2.2
        = [TokenEv.networkTokenRequest "app_1"] :=
  ⟨by decide, by decide,
   c3_token_cache_amended.1 [("acc", { token := "tok", expireAt := 5 })]
     "acc" 4 "x" none { token := "tok", expireAt := 5 } (by decide)
     (by decide),
   (c3_token_cache_amended.2.2 [] "app_1" 0 "tok_a" none
      (by intro p hp; cases hp)).1⟩

/-- Claim C4: the scenario start, update "10%", update "50%",
close "100% done" produces exactly three remote content-update calls with
strictly increasing sequence numbers (2, 3, 4) followed by exactly one
settings-patch call disabling streaming mode (sequence 5); and in general
every operation sequence run through the per-session queue emits its
sequence numbers in strictly increasing order. -/
theorem c4_streaming_sequence_monotone :
    ((((⟨none, false⟩ : FeishuStreamingSession).start "card_1" "om_1"
            NetOutcome.ok NetOutcome.ok).1.runOps
          [SessionOp.update "10%" NetOutcome.ok,
           SessionOp.update "50%" NetOutcome.ok,
           SessionOp.close (some "100% done") none NetOutcome.ok
             NetOutcome.ok]).2
        = [CardCall.contentUpdate "card_1" "streaming_content" "10%" 2,
           CardCall.contentUpdate "card_1" "streaming_content" "50%" 3,
           CardCall.contentUpdate "card_1" "streaming_content" "100% done" 4,
           CardCall.settingsPatch "card_1" 5 false "100% done"]) ∧
      (∀ (s : FeishuStreamingSession) (ops : List SessionOp),
        List.Chain' (· < ·) (seqsOf (s.runOps ops).2)) := by
  constructor
  · decide
  · intro s ops
    exact (runOps_bounds ops s).1

/-- Claim C9 counterexample: a transport failure inside `close`'s settings
patch is caught and logged, `close` resolves normally — no error reaches
the caller even though the patch call failed — while the session is marked
terminated. This run starts a session, then closes it with the settings
patch failing at the transport level. -/
theorem c9_close_error_counterexample :
    isOk
        (((⟨none, false⟩ : FeishuStreamingSession).start "card_1" "om_1"
              NetOutcome.ok NetOutcome.ok).1.close (some "done") none
            NetOutcome.ok NetOutcome.transportError).2.2
      = true ∧
      (((⟨none, false⟩ : FeishuStreamingSession).start "card_1" "om_1"
            NetOutcome.ok NetOutcome.ok).1.close (some "done") none
          NetOutcome.ok NetOutcome.transportError).1.closed = true ∧
      (((⟨none, false⟩ : FeishuStreamingSession).start "card_1" "om_1"
            NetOutcome.ok NetOutcome.ok).1.close (some "done") none
          NetOutcome.ok NetOutcome.transportError).2.1
        = [CardCall.contentUpdate "card_1" "streaming_content" "done" 2,
           CardCall.settingsPatch "card_1" 3 false "done"] := by
  refine ⟨by decide, by decide, by decide⟩

/-- Claim C9 (amended): failures of individual `update` calls are swallowed
(update never rejects and leaves the session open and started), and `close`
failures are likewise caught and logged rather than surfaced — `close`
never rejects; the session is terminated after a `close` on a started,
not-yet-closed session in every case. Only `start` propagates failures of
its network calls to the caller. -/
theorem c9_error_handling_amended :
    (∀ (s : FeishuStreamingSession) (text : String) (o : NetOutcome),
        isOk (s.update text o).2.2 = true ∧
          (s.update text o).1.closed = s.closed ∧
          (s.update text o).1.state.isSome = s.state.isSome) ∧
      (∀ (s : FeishuStreamingSession) (fT sm : Option String)
          (o1 o2 : NetOutcome),
          isOk (s.close fT sm o1 o2).2.2 = true ∧
            (s.closed = false → s.state.isSome = true →
              (s.close fT sm o1 o2).1.closed = true)) ∧
      (∀ (s : FeishuStreamingSession) (cid mid : String)
          (o1 o2 : NetOutcome),
          s.state = none → o1 ≠ NetOutcome.ok →
          isOk (s.start cid mid o1 o2).2.2 = false) := by
  refine ⟨?_, ?_, ?_⟩
  · intro s text o
    cases hst : s.state with
    | none => simp [FeishuStreamingSession.update, hst, isOk]
    | some st =>
        by_cases hc : s.closed <;>
          simp [FeishuStreamingSession.update, hst, hc, isOk]
  · intro s fT sm o1 o2
    cases hst : s.state with
    | none => simp [FeishuStreamingSession.close, hst, isOk]
    | some st =>
        by_cases hc : s.closed
        · simp [FeishuStreamingSession.close, hst, hc, isOk]
        · by_cases htext : ((fT.getD st.currentText) == "") = true
          · simp [FeishuStreamingSession.close, hst, hc, htext, isOk,
              closeStreamingMode]
          · cases o1 <;>
              simp [FeishuStreamingSession.close, hst, hc, htext, isOk,
                updateStreamingCardText, closeStreamingMode]
  · intro s cid mid o1 o2 hst ho1
    have hne : (o1 != NetOutcome.ok) = true := by
      cases o1 <;> simp_all
    simp [FeishuStreamingSession.start, hst, hne, isOk]

/-- Claim C9 (amended) witness at concrete inputs. -/
theorem c9_error_handling_amended_witness :
    (isOk
          ((⟨some
                { cardId := "card_1", messageId := "om_1", sequence := 3,
                  elementId := "streaming_content", currentText := "a" },
              false⟩ : FeishuStreamingSession).update "b"
            NetOutcome.transportError).2.2
        = true ∧
        ((⟨some
              { cardId := "card_1", messageId := "om_1", sequence := 3,
                elementId := "streaming_content", currentText := "a" },
            false⟩ : FeishuStreamingSession).update "b"
              NetOutcome.transportError).1.closed
          = (false : Bool) ∧
        ((⟨some
              { cardId := "card_1", messageId := "om_1", sequence := 3,
                elementId := "streaming_content", currentText := "a" },
            false⟩ : FeishuStreamingSession).update "b"
              NetOutcome.transportError).1.state.isSome
          = ((some
                { cardId := "card_1", messageId := "om_1", sequence := 3,
                  elementId := "streaming_content", currentText := "a" } :
              Option SessionState)).isSome) ∧
      isOk
          ((⟨some
                { cardId := "card_1", messageId := "om_1", sequence := 3,
                  elementId := "streaming_content", currentText := "a" },
              false⟩ : FeishuStreamingSession).close (some "done") none
            NetOutcome.transportError NetOutcome.transportError).2.2
        = true ∧
      ((⟨some
            { cardId := "card_1", messageId := "om_1", sequence := 3,
              elementId := "streaming_content", currentText := "a" },
          false⟩ : FeishuStreamingSession).close (some "done") none
            NetOutcome.transportError NetOutcome.transportError).1.closed
        = true ∧
      isOk
          ((⟨none, false⟩ : FeishuStreamingSession).start "card_1" "om_1"
            NetOutcome.transportError NetOutcome.ok).2.2
        = false := by
  refine ⟨?_, ?_, ?_, ?_⟩
  · exact c9_error_handling_amended.1
      ⟨some
        { cardId := "card_1", messageId := "om_1", sequence := 3,
          elementId := "streaming_content", currentText := "a" },
        false⟩ "b" NetOutcome.transportError
  · exact (c9_error_handling_amended.2.1
      ⟨some
        { cardId := "card_1", messageId := "om_1", sequence := 3,
          elementId := "streaming_content", currentText := "a" },
        false⟩ (some "done") none NetOutcome.transportError
      NetOutcome.transportError).1
  · exact (c9_error_handling_amended.2.1
      ⟨some
        { cardId := "card_1", messageId := "om_1", sequence := 3,
          elementId := "streaming_content", currentText := "a" },
        false⟩ (some "done") none NetOutcome.transportError
      NetOutcome.transportError).2 rfl rfl
  · exact c9_error_handling_amended.2.2 ⟨none, false⟩ "card_1" "om_1"
      NetOutcome.transportError NetOutcome.ok rfl (by decide)

/-- Claim C10: after `close` has been called (in any state), and likewise
before `start` has succeeded, every `update` call is a no-op — it issues no
remote call and leaves the session (current text, sequence counter, flags)
unchanged; and a second `start` on an already-started session returns
without touching the existing card and message identifiers. -/
theorem c10_noop_after_close_or_before_start :
    (∀ (s : FeishuStreamingSession) (fT sm : Option String)
        (o1 o2 : NetOutcome) (text : String) (o : NetOutcome),
        (s.close fT sm o1 o2).1.update text o
          = ((s.close fT sm o1 o2).1, [], Except.ok ())) ∧
      (∀ (s : FeishuStreamingSession) (text : String) (o : NetOutcome),
        s.state = none → s.update text o = (s, [], Except.ok ())) ∧
      (∀ (s : FeishuStreamingSession) (cid mid : String) (o1 o2 : NetOutcome)
          (st : SessionState),
        s.state = some st → s.start cid mid o1 o2 = (s, [], Except.ok ())) := by
  refine ⟨?_, ?_, ?_⟩
  · intro s fT sm o1 o2 text o
    cases hst : s.state with
    | none =>
        simp [FeishuStreamingSession.close, FeishuStreamingSession.update, hst]
    | some st2 =>
        by_cases hc : s.closed
        · simp [FeishuStreamingSession.close, FeishuStreamingSession.update,
            hst, hc]
        · by_cases htext : ((fT.getD st2.currentText) == "") = true
          · simp [FeishuStreamingSession.close,
              FeishuStreamingSession.update, hst, hc, htext,
              closeStreamingMode]
          · cases o1 <;>
              simp [FeishuStreamingSession.close,
                FeishuStreamingSession.update, hst, hc, htext,
                updateStreamingCardText, closeStreamingMode]
  · intro s text o hst
    simp [FeishuStreamingSession.update, hst]
  · intro s cid mid o1 o2 st hst
    simp [FeishuStreamingSession.start, hst]

/-- Claim C10 witness at concrete inputs. -/
theorem c10_noop_after_close_or_before_start_witness :
    ((⟨some
          { cardId := "card_1", messageId := "om_1", sequence := 3,
            elementId := "streaming_content", currentText := "a" },
        false⟩ : FeishuStreamingSession).close (some "done") none
          NetOutcome.ok NetOutcome.ok).1.update "late" NetOutcome.ok
      = (((⟨some
              { cardId := "card_1", messageId := "om_1", sequence := 3,
                elementId := "streaming_content", currentText := "a" },
            false⟩ : FeishuStreamingSession).close (some "done") none
            NetOutcome.ok NetOutcome.ok).1, [], Except.ok ()) ∧
      (⟨none, false⟩ : FeishuStreamingSession).update "early" NetOutcome.ok
        = (⟨none, false⟩, [], Except.ok ()) ∧
      (⟨some
            { cardId := "card_1", messageId := "om_1", sequence := 3,
              elementId := "streaming_content", currentText := "a" },
          false⟩ : FeishuStreamingSession).start "card_2" "om_2"
          NetOutcome.ok NetOutcome.ok
        = (⟨some
              { cardId := "card_1", messageId := "om_1", sequence := 3,
                elementId := "streaming_content", currentText := "a" },
            false⟩, [], Except.ok ()) :=
  ⟨c10_noop_after_close_or_before_start.1
      ⟨some
        { cardId := "card_1", messageId := "om_1", sequence := 3,
          elementId := "streaming_content", currentText := "a" },
        false⟩ (some "done") none NetOutcome.ok NetOutcome.ok "late"
      NetOutcome.ok,
   c10_noop_after_close_or_before_start.2.1 ⟨none, false⟩ "early"
     NetOutcome.ok rfl,
   c10_noop_after_close_or_before_start.2.2
     ⟨some
       { cardId := "card_1", messageId := "om_1", sequence := 3,
         elementId := "streaming_content", currentText := "a" },
       false⟩ "card_2" "om_2" NetOutcome.ok NetOutcome.ok
     { cardId := "card_1", messageId := "om_1", sequence := 3,
       elementId := "streaming_content", currentText := "a" } rfl⟩

/-- Claim C5: the `sendFinalCalled` latch makes every second and later
`sendFinalReply` on the same dispatcher instance return without any
outbound call and without touching the state; once called, the latch stays
set; and a fresh dispatcher's first final reply with no media and no
detected screenshot sends exactly one message. -/
theorem c5_sendFinalReply_latch :
    (∀ (st : DispatcherState) (mid1 mid2 : String) (p1 p2 : ReplyPayload)
        (e1 e2 : FinalEnv),
        sendFinalReply (sendFinalReply st mid1 p1 e1).1 mid2 p2 e2
          = ((sendFinalReply st mid1 p1 e1).1, [])) ∧
      (∀ (st : DispatcherState) (mid : String) (p : ReplyPayload)
          (e : FinalEnv),
        (sendFinalReply st mid p e).1.sendFinalCalled = true) ∧
      (∀ (mid text : String) (rid : Option String) (o : NetOutcome),
        (sendFinalReply ⟨false, rid, false⟩ mid ⟨text, []⟩
            ⟨false, o⟩).2.countP isSendMessageEv = 1) := by
  have hlatch : ∀ (st : DispatcherState) (mid : String) (p : ReplyPayload)
      (e : FinalEnv), (sendFinalReply st mid p e).1.sendFinalCalled = true := by
    intro st mid p e
    by_cases hcall : st.sendFinalCalled = true
    · simp [sendFinalReply, hcall]
    · simp only [Bool.not_eq_true] at hcall
      by_cases hm : p.media.isEmpty = true
      · cases hrid : st.typingReactionId with
        | none => simp [sendFinalReply, hcall, hm, hrid]
        | some rid =>
            by_cases ho : (e.removeOutcome == NetOutcome.transportError) = true <;>
              simp [sendFinalReply, hcall, hm, hrid, ho]
      · simp [sendFinalReply, hcall, hm]
  have hstop : ∀ (s : DispatcherState) (mid : String) (p : ReplyPayload)
      (e : FinalEnv), s.sendFinalCalled = true →
      sendFinalReply s mid p e = (s, []) := by
    intro s mid p e h
    unfold sendFinalReply
    rw [if_pos h]
  refine ⟨fun st mid1 mid2 p1 p2 e1 e2 =>
      hstop _ mid2 p2 e2 (hlatch st mid1 p1 e1),
    hlatch, ?_⟩
  intro mid text rid o
  cases rid with
  | none =>
      by_cases ht : text.length > 200 <;>
        simp [sendFinalReply, screenshotEvents, isSendMessageEv, ht,
          List.countP_cons, List.countP_append]
  | some r =>
      by_cases ho : (o == NetOutcome.transportError) = true <;>
        by_cases ht : text.length > 200 <;>
          simp [sendFinalReply, screenshotEvents, isSendMessageEv, ht, ho,
            List.countP_cons, List.countP_append]

/-- Claim C6 counterexample: with the typing indicator successfully added
(reaction id "r1"), a final reply carrying one image attachment removes the
indicator zero times — `sendFinalReply`'s removal sits only on the no-media
branch, and the subsequent `waitForIdle` returns at once (processing is
resolved) without removing it either. The claim's "removed exactly once"
fails on this run. -/
theorem c6_typing_removal_counterexample :
    (sendThinkingCard ⟨false, none, false⟩ "om_1"
          (some "r1")).1.typingReactionId
      = some "r1" ∧
      countRemovals
          ((sendThinkingCard ⟨false, none, false⟩ "om_1" (some "r1")).2
            ++ (sendFinalReply
                  (sendThinkingCard ⟨false, none, false⟩ "om_1"
                    (some "r1")).1
                  "om_1" ⟨"", [⟨"image", true⟩]⟩
                  ⟨false, NetOutcome.ok⟩).2
            ++ (waitForIdle
                  (sendFinalReply
                    (sendThinkingCard ⟨false, none, false⟩ "om_1"
                      (some "r1")).1
                    "om_1" ⟨"", [⟨"image", true⟩]⟩
                    ⟨false, NetOutcome.ok⟩).1
                  "om_1").2)
        = 0 :=
  ⟨by decide, by decide⟩

theorem countP_isRemovalEv_mediaItemEvents (m : MediaItem) :
    (mediaItemEvents m).countP isRemovalEv = 0 := by
  unfold mediaItemEvents
  by_cases hb : (m.mtype == "image" && m.hasBuffer) = true
  · rw [if_pos hb]
    rfl
  · rw [if_neg hb]
    rfl

theorem sum_countP_removal_media (l : List MediaItem) :
    (l.map (List.countP isRemovalEv ∘ mediaItemEvents)).sum = 0 := by
  induction l with
  | nil => rfl
  | cons a t ih =>
      rw [List.map_cons, List.sum_cons, ih]
      rw [show (List.countP isRemovalEv ∘ mediaItemEvents) a
          = (mediaItemEvents a).countP isRemovalEv from rfl]
      rw [countP_isRemovalEv_mediaItemEvents a]

/-- Claim C6 (amended): the typing-indicator reaction is removed exactly
once when the final reply carries no media (by `sendFinalReply`, before the
final send) and exactly once by the 30-second `waitForIdle` fallback when
no final reply ever resolves processing (and `waitForIdle` then resolves);
but a final reply carrying media attachments removes it zero times and
leaves the reaction in place, and the `waitForIdle` that follows a final
reply performs no removal either. -/
theorem c6_typing_removal_amended (st : DispatcherState) (mid rid : String)
    (p : ReplyPayload) (env : FinalEnv)
    (hcall : st.sendFinalCalled = false)
    (hrid : st.typingReactionId = some rid) :
    (p.media = [] → countRemovals (sendFinalReply st mid p env).2 = 1) ∧
      (p.media ≠ [] →
        countRemovals (sendFinalReply st mid p env).2 = 0 ∧
          (sendFinalReply st mid p env).1.typingReactionId = some rid) ∧
      (st.processingResolved = false →
        countRemovals (waitForIdle st mid).2 = 1 ∧
          (waitForIdle st mid).1.processingResolved = true) ∧
      countRemovals (waitForIdle (sendFinalReply st mid p env).1 mid).2 = 0 := by
  have hresolved : (sendFinalReply st mid p env).1.processingResolved = true := by
    by_cases hm : p.media.isEmpty = true
    · by_cases ho : (env.removeOutcome == NetOutcome.transportError) = true <;>
        simp [sendFinalReply, hcall, hm, hrid, ho]
    · simp [sendFinalReply, hcall, hm]
  refine ⟨?_, ?_, ?_, ?_⟩
  · intro hmedia
    by_cases ho : (env.removeOutcome == NetOutcome.transportError) = true <;>
      by_cases hshot : env.recentScreenshot = true <;>
        by_cases ht : p.text.length > 200 <;>
          simp [sendFinalReply, screenshotEvents, hcall, hmedia, hrid, ho,
            hshot, ht, countRemovals, isRemovalEv, List.countP_cons,
            List.countP_append]
  · intro hmedia
    have hm : p.media.isEmpty = false := by
      cases hpm : p.media with
      | nil => exact absurd hpm hmedia
      | cons a l => rfl
    refine ⟨?_, ?_⟩
    · by_cases hshot : env.recentScreenshot = true <;>
        by_cases htext : (p.text == "") = true <;>
          simp [sendFinalReply, screenshotEvents, hcall, hm, hshot, htext,
            countRemovals, isRemovalEv, List.countP_cons, List.countP_append,
            sum_countP_removal_media]
    · simp [sendFinalReply, hcall, hm, hrid]
  · intro hres
    simp [waitForIdle, hres, hrid, countRemovals, isRemovalEv,
      List.countP_cons]
  · simp [waitForIdle, hresolved, countRemovals]

/-- Claim C6 (amended) witness at concrete inputs: a no-media final reply
removes the indicator once; a media-bearing final reply removes it zero
times and leaves it set; the timeout fallback removes it once and resolves;
`waitForIdle` after a final reply removes nothing. -/
theorem c6_typing_removal_amended_witness :
    (⟨false, some "r1", false⟩ : DispatcherState).sendFinalCalled = false ∧
      (⟨false, some "r1", false⟩ : DispatcherState).typingReactionId
        = some "r1" ∧
      countRemovals
          (sendFinalReply ⟨false, some "r1", false⟩ "om_1" ⟨"ok", []⟩
            ⟨false, NetOutcome.ok⟩).2
        = 1 ∧
      (countRemovals
            (sendFinalReply ⟨false, some "r1", false⟩ "om_1"
              ⟨"", [⟨"image", true⟩]⟩ ⟨false, NetOutcome.ok⟩).2
          = 0 ∧
        (sendFinalReply ⟨false, some "r1", false⟩ "om_1"
            ⟨"", [⟨"image", true⟩]⟩ ⟨false, NetOutcome.ok⟩).1.typingReactionId
          = some "r1") ∧
      (countRemovals (waitForIdle ⟨false, some "r1", false⟩ "om_1").2 = 1 ∧
        (waitForIdle ⟨false, some "r1", false⟩
            "om_1").1.processingResolved
          = true) ∧
      countRemovals
          (waitForIdle
            (sendFinalReply ⟨false, some "r1", false⟩ "om_1" ⟨"ok", []⟩
              ⟨false, NetOutcome.ok⟩).1
            "om_1").2
        = 0 :=
  ⟨rfl, rfl,
   (c6_typing_removal_amended ⟨false, some "r1", false⟩ "om_1" "r1"
       ⟨"ok", []⟩ ⟨false, NetOutcome.ok⟩ rfl rfl).1 rfl,
   (c6_typing_removal_amended ⟨false, some "r1", false⟩ "om_1" "r1"
       ⟨"", [⟨"image", true⟩]⟩ ⟨false, NetOutcome.ok⟩ rfl rfl).2.1
     (by decide),
   (c6_typing_removal_amended ⟨false, some "r1", false⟩ "om_1" "r1"
       ⟨"ok", []⟩ ⟨false, NetOutcome.ok⟩ rfl rfl).2.2.1 rfl,
   (c6_typing_removal_amended ⟨false, some "r1", false⟩ "om_1" "r1"
       ⟨"ok", []⟩ ⟨false, NetOutcome.ok⟩ rfl rfl).2.2.2⟩

/-- Claim C7 counterexample: `processFeishuMessageAsync` invokes
`sendThinkingCard()` without awaiting it, so the completion of the reaction
network call is concurrent with the backend's dispatcher calls. The
interleaving below — reaction request issued, a block-reply text send
performed, only then the reaction call completing — is an admissible
execution, and in it a send is performed before the typing-indicator add
has completed. -/
theorem c7_add_completion_counterexample :
    (sendBlockReply ⟨"hi", []⟩).map AsyncEv.dispatchSend
        = [AsyncEv.dispatchSend (SendEv.sendMessage "text")] ∧
      Interleaving thinkingTaskEvents
        [AsyncEv.dispatchSend (SendEv.sendMessage "text")]
        [AsyncEv.reactionAddStarted,
         AsyncEv.dispatchSend (SendEv.sendMessage "text"),
         AsyncEv.reactionAddCompleted] ∧
      sendBeforeCompletion
          [AsyncEv.reactionAddStarted,
           AsyncEv.dispatchSend (SendEv.sendMessage "text"),
           AsyncEv.reactionAddCompleted]
        = true :=
  ⟨by decide,
   Interleaving.left (Interleaving.right (Interleaving.left Interleaving.nil)),
   by decide⟩

/-- Claim C7 (amended): the typing-indicator add is started before the
backend dispatch but is not awaited, so its completion may be observed
after a tool/block/final send (see the counterexample); what does hold is
the second half of the claim: within every admissible interleaving of the
thinking task with a dispatch trace ending in a no-media `sendFinalReply`,
the typing-indicator removal precedes the final send. -/
theorem c7_removal_before_final_send (st : DispatcherState)
    (mid rid : String) (p : ReplyPayload) (env : FinalEnv)
    (pre : List SendEv) (t : List AsyncEv)
    (h1 : st.sendFinalCalled = false)
    (h2 : st.typingReactionId = some rid)
    (h3 : p.media = [])
    (hadm : Interleaving thinkingTaskEvents
        ((pre ++ (sendFinalReply st mid p env).2).map AsyncEv.dispatchSend) t) :
    OrderedIn (AsyncEv.dispatchSend (SendEv.removeTypingReaction mid rid))
      (AsyncEv.dispatchSend
        (SendEv.sendMessage
          (if p.text.length > 200 then "interactive" else "text")))
      t := by
  apply hadm.orderedIn_right
  have hevs : (sendFinalReply st mid p env).2
      = screenshotEvents env
          ++ SendEv.removeTypingReaction mid rid ::
              [SendEv.sendMessage
                (if p.text.length > 200 then "interactive" else "text")] := by
    by_cases ho : (env.removeOutcome == NetOutcome.transportError) = true <;>
      by_cases ht : p.text.length > 200 <;>
        simp [sendFinalReply, h1, h2, h3, ho, ht]
  rw [hevs]
  refine ⟨(pre ++ screenshotEvents env).map AsyncEv.dispatchSend, [], [], ?_⟩
  simp [List.map_append]

/-- Claim C7 (amended) witness at concrete inputs. -/
theorem c7_removal_before_final_send_witness :
    (⟨false, some "r1", false⟩ : DispatcherState).sendFinalCalled = false ∧
      (⟨false, some "r1", false⟩ : DispatcherState).typingReactionId
        = some "r1" ∧
      ((⟨"done", []⟩ : ReplyPayload)).media = [] ∧
      Interleaving thinkingTaskEvents
        (([] ++ (sendFinalReply ⟨false, some "r1", false⟩ "om_1" ⟨"done", []⟩
            ⟨false, NetOutcome.ok⟩).2).map AsyncEv.dispatchSend)
        [AsyncEv.reactionAddStarted, AsyncEv.reactionAddCompleted,
         AsyncEv.dispatchSend (SendEv.removeTypingReaction "om_1" "r1"),
         AsyncEv.dispatchSend (SendEv.sendMessage "text")] ∧
      OrderedIn
        (AsyncEv.dispatchSend (SendEv.removeTypingReaction "om_1" "r1"))
        (AsyncEv.dispatchSend (SendEv.sendMessage "text"))
        [AsyncEv.reactionAddStarted, AsyncEv.reactionAddCompleted,
         AsyncEv.dispatchSend (SendEv.removeTypingReaction "om_1" "r1"),
         AsyncEv.dispatchSend (SendEv.sendMessage "text")] := by
  have hint : Interleaving thinkingTaskEvents
      (([] ++ (sendFinalReply ⟨false, some "r1", false⟩ "om_1" ⟨"done", []⟩
          ⟨false, NetOutcome.ok⟩).2).map AsyncEv.dispatchSend)
      [AsyncEv.reactionAddStarted, AsyncEv.reactionAddCompleted,
       AsyncEv.dispatchSend (SendEv.removeTypingReaction "om_1" "r1"),
       AsyncEv.dispatchSend (SendEv.sendMessage "text")] :=
    Interleaving.left (Interleaving.left
      (Interleaving.right (Interleaving.right Interleaving.nil)))
  refine ⟨rfl, rfl, rfl, hint, ?_⟩
  exact c7_removal_before_final_send ⟨false, some "r1", false⟩ "om_1" "r1"
    ⟨"done", []⟩ ⟨false, NetOutcome.ok⟩ [] _ rfl rfl rfl hint
